import Mathlib

/-
Verification development for the LeakGuard breach-aggregation core:
a shallow embedding of the aggregation orchestrator
(`BreachCheckService`), the two source checkers
(`LeakCheckApiService`, `XposedOrNotApiService`) and the resilient
fetch layer's `scrapeJSON` protocol, together with theorems about the
orchestration, caching, deduplication and monitoring behaviour.

Conventions of the embedding:
* asynchronous settled results of a checker call (`Promise.allSettled`)
  are modelled as `Option`: `some v` is a fulfilled promise with value
  `v`, `none` is a rejected or timed-out promise;
* the Redis cache is an association list from string keys to tagged
  values; a read returns the most recent write for the key;
* side effects that are externally observable (cache reads, cache
  writes with their TTL, checker invocations, outgoing HTTP fetches)
  are recorded in an event trace;
* JS numbers that are always counts of characters or matches are
  modelled as `Nat`; the remote password occurrence count, produced by
  `parseInt`, is modelled as `Int`.
-/

namespace LeakGuard

/-- The `Breach` record (types/breach.types.ts): `Name` is required, `Domain`
and `BreachDate` are optional. -/
structure Breach where
  Name : String
  Domain : Option String
  BreachDate : Option String
deriving DecidableEq, Repr

/-- The `PasswordCheckResult` record (types/breach.types.ts). `count` comes from
`parseInt` on remote data and is modelled as `Int`; the four
character-composition fields are match/length counts, modelled as `Nat`. -/
structure PasswordCheckResult where
  found : Bool
  count : Int
  digits : Nat
  alphabets : Nat
  specialChars : Nat
  length : Nat
deriving DecidableEq, Repr

/-- One breach-details record of the analytics payload. -/
structure BreachDetails where
  breach : String
  xposed_date : String
  domain : String
  industry : String
  xposed_data : String
  details : String
  referenceLinks : String
  password_risk : String
deriving DecidableEq, Repr

/-- Per-industry count entry of the analytics payload. -/
structure IndustryCount where
  name : String
  count : Nat
deriving DecidableEq, Repr

/-- Password-strength histogram of the analytics payload. -/
structure PasswordStrength where
  PlainText : Nat
  StrongHash : Nat
  Unknown : Nat
deriving DecidableEq, Repr

/-- Risk label/score pair of the analytics payload. -/
structure Risk where
  label : String
  score : Nat
deriving DecidableEq, Repr

/-- One exposed-data leaf of the analytics payload. -/
structure ExposedItem where
  name : String
  value : Nat
deriving DecidableEq, Repr

/-- One exposed-data category of the analytics payload. -/
structure ExposedCategory where
  category : String
  items : List ExposedItem
deriving DecidableEq, Repr

/-- Per-year count entry of the analytics payload. -/
structure YearCount where
  year : String
  count : Nat
deriving DecidableEq, Repr

/-- The `Analytics` record (types/breach.types.ts). -/
structure Analytics where
  breaches : List String
  breachesDetails : List BreachDetails
  industries : List IndustryCount
  passwordStrength : PasswordStrength
  risk : Risk
  exposedData : List ExposedCategory
  years : List YearCount
deriving DecidableEq, Repr

/-- The `AppError` record (common/errors/app.error.ts), as constructed at its call
sites: a message, an HTTP-style status code and a machine-readable code. -/
structure AppError where
  message : String
  statusCode : Nat
  code : String
deriving DecidableEq, Repr

/-- A value stored in the shared Redis cache, tagged by its shape. -/
inductive CacheValue where
  | breaches (bs : List Breach)
  | pwResult (r : PasswordCheckResult)
  | analyticsVal (a : Analytics)
  | chatId (n : Int)
deriving DecidableEq, Repr

/-- The cache is an association list; a read returns the most recent
write for a key. -/
abbrev Cache := List (String × CacheValue)

/-- Cache read (`RedisCacheService.get`). -/
def cacheGet (cache : Cache) (key : String) : Option CacheValue :=
  (cache.find? (fun e => decide (e.1 = key))).map (·.2)

/-- Cache write (`RedisCacheService.set`): the new binding shadows any
older binding for the same key. -/
def cacheSet (cache : Cache) (key : String) (v : CacheValue) : Cache :=
  (key, v) :: cache

/-- Typed cache read of a breach list. -/
def getCachedBreaches (cache : Cache) (key : String) : Option (List Breach) :=
  match cacheGet cache key with
  | some (.breaches bs) => some bs
  | _ => none

/-- Typed cache read of a password-check result. -/
def getCachedPw (cache : Cache) (key : String) : Option PasswordCheckResult :=
  match cacheGet cache key with
  | some (.pwResult r) => some r
  | _ => none

/-- Typed cache read of an analytics record. -/
def getCachedAnalytics (cache : Cache) (key : String) : Option Analytics :=
  match cacheGet cache key with
  | some (.analyticsVal a) => some a
  | _ => none

/-- Typed cache read of a monitor-subscription chat id. -/
def getCachedChatId (cache : Cache) (key : String) : Option Int :=
  match cacheGet cache key with
  | some (.chatId n) => some n
  | _ => none

/-- Externally observable side effects of an operation, in order. -/
inductive Event where
  | cacheRead (key : String)
  | cacheWrite (key : String) (ttl : Nat)
  | checkerCall (idx : Nat)
  | fetchCall (url : String)
deriving DecidableEq, Repr

/-- Outcome of one service operation: its result (`Except` models a
promise that resolves or throws), the cache afterwards, and the trace
of observable effects. -/
structure OpOut (α : Type) where
  result : Except AppError α
  cache : Cache
  events : List Event

/-- Character class of the JS regex `\s` (ECMAScript WhiteSpace and
LineTerminator code points), used by the email regex. -/
def isJsWhitespace (c : Char) : Bool :=
  c.val == 9 || c.val == 10 || c.val == 11 || c.val == 12 || c.val == 13 ||
  c.val == 32 || c.val == 0xa0 || c.val == 0x1680 ||
  (0x2000 ≤ c.val && c.val ≤ 0x200a) ||
  c.val == 0x2028 || c.val == 0x2029 || c.val == 0x202f ||
  c.val == 0x205f || c.val == 0x3000 || c.val == 0xfeff

/-- A character admissible in the atoms of the email regex: the class
`[^\s@]`. -/
def isEmailAtomChar (c : Char) : Bool :=
  !isJsWhitespace c && !(c == '@')

/-- Embeds `isValidEmail` (breach-check.service.ts:203-206): test of the regex
`/^[^\s@]+@[^\s@]+\.[^\s@]+$/`.  A string matches iff it decomposes as
`local ++ "@" ++ domain` where `local` is a nonempty `[^\s@]` atom and
`domain` is a nonempty `[^\s@]` string containing a `.` that is neither
its first nor its last character (so that both dot-sides are nonempty). -/
def isValidEmail (email : String) : Bool :=
  let cs := email.toList
  let localPart := cs.takeWhile (fun c => !(c == '@'))
  let rest := cs.dropWhile (fun c => !(c == '@'))
  match rest with
  | [] => false
  | _ :: domainPart =>
    !localPart.isEmpty && localPart.all isEmailAtomChar &&
    !domainPart.isEmpty && domainPart.all isEmailAtomChar &&
    ((domainPart.drop 1).dropLast).contains '.'

/-- Character class of the JS regex `\d` (no unicode flag): ASCII digits. -/
def isDigitChar (c : Char) : Bool := '0' ≤ c && c ≤ '9'

/-- Character class of the JS regex `[a-zA-Z]`. -/
def isAlphaChar (c : Char) : Bool :=
  ('a' ≤ c && c ≤ 'z') || ('A' ≤ c && c ≤ 'Z')

/-- Embeds `computePasswordStats` (breach-check.service.ts:218-227): locally
computed character composition with `found=false`, `count=0`. -/
def computePasswordStats (password : String) : PasswordCheckResult :=
  { found := false
    count := 0
    digits := (password.toList.filter isDigitChar).length
    alphabets := (password.toList.filter isAlphaChar).length
    specialChars := (password.toList.filter
      (fun c => !(isAlphaChar c || isDigitChar c))).length
    length := password.toList.length }

/-- Deduplication key: `breach.Name.toLowerCase()`, modelled as
characterwise lowering. -/
def breachKey (b : Breach) : String :=
  String.mk (b.Name.toList.map Char.toLower)

/-- Worker of `removeDuplicates`, carrying the `seen` set of
lower-cased names already kept. -/
def removeDuplicatesAux (seen : List String) : List Breach → List Breach
  | [] => []
  | b :: rest =>
    if breachKey b ∈ seen then removeDuplicatesAux seen rest
    else b :: removeDuplicatesAux (breachKey b :: seen) rest

/-- Embeds `removeDuplicates` (breach-check.service.ts:208-216): keep a breach
iff its lower-cased `Name` has not been seen before (first occurrence
wins). -/
def removeDuplicates (breaches : List Breach) : List Breach :=
  removeDuplicatesAux [] breaches

/-- The `InvalidInput` error thrown on a malformed email
(breach-check.service.ts:34 and 119). -/
def invalidEmailError : AppError :=
  { message := "Invalid email format", statusCode := 400, code := "INVALID_EMAIL" }

/-- Embeds `BreachCheckService.checkEmailBreaches` (breach-check.service.ts:31-69).
`outcomes` is the list of settled results of the registered checkers'
`checkEmailBreaches` calls, in registration order (`some bs` fulfilled,
`none` rejected or timed out by the 35 s watchdog). -/
def checkEmailBreaches (outcomes : List (Option (List Breach)))
    (email : String) (cache : Cache) : OpOut (List Breach) :=
  if isValidEmail email then
    let cacheKey := "email:" ++ email
    match getCachedBreaches cache cacheKey with
    | some cached => ⟨.ok cached, cache, [.cacheRead cacheKey]⟩
    | none =>
      let breaches := (outcomes.filterMap id).flatten
      let uniqueBreaches := removeDuplicates breaches
      ⟨.ok uniqueBreaches,
       cacheSet cache cacheKey (.breaches uniqueBreaches),
       [.cacheRead cacheKey] ++ (List.range outcomes.length).map .checkerCall ++
         [.cacheWrite cacheKey (24 * 60 * 60)]⟩
  else ⟨.error invalidEmailError, cache, []⟩

/-- Accumulation step of `checkPassword`'s `results.forEach`
(breach-check.service.ts:93-108): a fulfilled checker with `found=true`
sets `found` and adds its `count`; everything else leaves the
accumulator unchanged. -/
def pwAccumStep (acc : PasswordCheckResult) :
    Option PasswordCheckResult → PasswordCheckResult
  | some r =>
    if r.found then { acc with found := true, count := acc.count + r.count }
    else acc
  | none => acc

/-- Embeds `BreachCheckService.checkPassword` (breach-check.service.ts:71-115).
`keccak512` is the digest function of the `js-sha3` library (modelled
abstractly as a parameter; the source uses its hex output as the cache
key).  `outcomes` are the settled results of the checkers' `checkPassword`
calls, in registration order. -/
def checkPassword (keccak512 : String → String)
    (outcomes : List (Option PasswordCheckResult))
    (password : String) (cache : Cache) : OpOut PasswordCheckResult :=
  if password = "" then ⟨.ok (computePasswordStats ""), cache, []⟩
  else
    let hash := keccak512 password
    let cacheKey := "password:" ++ hash
    match getCachedPw cache cacheKey with
    | some cached => ⟨.ok cached, cache, [.cacheRead cacheKey]⟩
    | none =>
      let finalResult := outcomes.foldl pwAccumStep (computePasswordStats password)
      ⟨.ok finalResult,
       cacheSet cache cacheKey (.pwResult finalResult),
       [.cacheRead cacheKey] ++ (List.range outcomes.length).map .checkerCall ++
         [.cacheWrite cacheKey (24 * 60 * 60)]⟩

/-- Embeds `getEmptyAnalytics` (breach-check.service.ts:233-243). -/
def getEmptyAnalytics : Analytics :=
  { breaches := []
    breachesDetails := []
    industries := []
    passwordStrength := { PlainText := 0, StrongHash := 0, Unknown := 0 }
    risk := { label := "Unknown", score := 0 }
    exposedData := []
    years := [] }

/-- Embeds `BreachCheckService.getAnalytics` (breach-check.service.ts:117-155).
`outcomes` are the settled results of the analytics-capable checkers;
a later fulfilled result overwrites an earlier one (last-fulfilled wins). -/
def getAnalytics (outcomes : List (Option Analytics))
    (email : String) (cache : Cache) : OpOut Analytics :=
  if isValidEmail email then
    let cacheKey := "analytics:" ++ email
    match getCachedAnalytics cache cacheKey with
    | some cached => ⟨.ok cached, cache, [.cacheRead cacheKey]⟩
    | none =>
      let analytics := outcomes.foldl (fun acc o => o.getD acc) getEmptyAnalytics
      ⟨.ok analytics,
       cacheSet cache cacheKey (.analyticsVal analytics),
       [.cacheRead cacheKey] ++ (List.range outcomes.length).map .checkerCall ++
         [.cacheWrite cacheKey (7 * 24 * 60 * 60)]⟩
  else ⟨.error invalidEmailError, cache, []⟩

/-- Body of the monitoring loop for one monitored email
(`BreachCheckService.monitorEmails`, breach-check.service.ts:171-201):
look up the chat id (skip when absent or falsy), re-run
`checkEmailBreaches`, read the "previous" snapshot from the same
`email:{email}` key, diff by `(Name, Domain)`, emit at most one
notification, then overwrite the snapshot with the fresh list.
Returns the final cache and the notifications sent (chat id paired with
the list of breaches reported as new). -/
def monitorEmailsStep (outcomes : List (Option (List Breach)))
    (email : String) (cache : Cache) :
    Except AppError (Cache × List (Int × List Breach)) :=
  match getCachedChatId cache ("monitor:" ++ email) with
  | none => .ok (cache, [])
  | some chatId =>
    if chatId = 0 then .ok (cache, [])
    else
      let r := checkEmailBreaches outcomes email cache
      match r.result with
      | .error e => .error e
      | .ok breaches =>
        let cacheKey := "email:" ++ email
        let previousBreaches := getCachedBreaches r.cache cacheKey
        let newBreaches :=
          match previousBreaches with
          | none => breaches
          | some prev =>
            breaches.filter (fun b =>
              !prev.any (fun p => decide (p.Name = b.Name ∧ p.Domain = b.Domain)))
        let notifications :=
          if newBreaches.length > 0 then [(chatId, newBreaches)] else []
        .ok (cacheSet r.cache cacheKey (.breaches breaches), notifications)

/-- Response shape of the LeakCheck public endpoint
(leak-check-api.service.ts:33-36). -/
structure LeakCheckSource where
  name : String
  date : Option String
deriving DecidableEq, Repr

/-- Response body of the LeakCheck public endpoint. -/
structure LeakCheckResponse where
  success : Bool
  sources : List LeakCheckSource
deriving DecidableEq, Repr

/-- Embeds `LeakCheckApiService.checkEmailBreaches` (leak-check-api.service.ts:23-67).
`fetch` is the settled HTTP GET: `some resp` a 2xx response body,
`none` a thrown transport/HTTP error. -/
def leakCheckCheckEmailBreaches (fetch : Option LeakCheckResponse)
    (url email : String) (cache : Cache) : OpOut (List Breach) :=
  let cacheKey := "leakcheck:" ++ email
  match getCachedBreaches cache cacheKey with
  | some cached => ⟨.ok cached, cache, [.cacheRead cacheKey]⟩
  | none =>
    match fetch with
    | none =>
      ⟨.error { message := "LeakCheck API error", statusCode := 500,
                code := "LEAKCHECK_ERROR" },
       cache, [.cacheRead cacheKey, .fetchCall url]⟩
    | some resp =>
      if resp.success then
        let breaches : List Breach :=
          resp.sources.map (fun s => ⟨s.name, none, s.date⟩)
        ⟨.ok breaches, cacheSet cache cacheKey (.breaches breaches),
         [.cacheRead cacheKey, .fetchCall url,
          .cacheWrite cacheKey (24 * 60 * 60)]⟩
      else
        ⟨.ok [], cache, [.cacheRead cacheKey, .fetchCall url]⟩

/-- Embeds `LeakCheckApiService.checkPassword` (leak-check-api.service.ts:70-80):
the LeakCheck API does not support password checks; the service returns
a constant all-zero result and performs no cache or network access. -/
def leakCheckCheckPassword : PasswordCheckResult :=
  { found := false, count := 0, digits := 0, alphabets := 0,
    specialChars := 0, length := 0 }

/-- Response body of the XposedOrNot check-email endpoint
(xposed-or-not-api.service.ts:16-18): `breaches` is an optional
one-element tuple holding the list of breach names. -/
structure XONCheckResponse where
  breaches : Option (List (List String))
deriving DecidableEq, Repr

/-- Embeds `XposedOrNotApiService.checkEmailBreaches`
(xposed-or-not-api.service.ts:66-102). -/
def xposedCheckEmailBreaches (fetch : Option XONCheckResponse)
    (url email : String) (cache : Cache) : OpOut (List Breach) :=
  let cacheKey := "xposed:" ++ email
  match getCachedBreaches cache cacheKey with
  | some cached => ⟨.ok cached, cache, [.cacheRead cacheKey]⟩
  | none =>
    match fetch with
    | none =>
      ⟨.error { message := "XposedOrNot API error", statusCode := 500,
                code := "XPOSED_OR_NOT_ERROR" },
       cache, [.cacheRead cacheKey, .fetchCall url]⟩
    | some resp =>
      let breaches : List Breach :=
        ((resp.breaches.bind List.head?).getD []).map
          (fun name => ⟨name, none, none⟩)
      ⟨.ok breaches, cacheSet cache cacheKey (.breaches breaches),
       [.cacheRead cacheKey, .fetchCall url,
        .cacheWrite cacheKey (24 * 60 * 60)]⟩

/-- The `SearchPassAnon` object of the XposedOrNot anonymous password
endpoint (xposed-or-not-api.service.ts:41-47). -/
structure SearchPassAnonData where
  char : String
  count : String
deriving DecidableEq, Repr

/-- Response body of the XposedOrNot anonymous password endpoint. -/
structure PasswordCheckResponse where
  Error : Option String
  SearchPassAnon : Option SearchPassAnonData
deriving DecidableEq, Repr

/-- Splits off the maximal run of leading ASCII digits. -/
def takeDigits : List Char → (List Char × List Char)
  | [] => ([], [])
  | c :: rest =>
    if isDigitChar c then
      let (ds, r) := takeDigits rest
      (c :: ds, r)
    else ([], c :: rest)

/-- Decimal value of a digit run. -/
def digitsToNat (ds : List Char) : Nat :=
  ds.foldl (fun n c => n * 10 + (c.toNat - '0'.toNat)) 0

/-- Parses a nonempty run of leading digits (the regex `\d+`), returning
its value and the remaining input. -/
def parseLeadingNat : List Char → Option (Nat × List Char)
  | l =>
    match takeDigits l with
    | ([], _) => none
    | (ds, rest) => some (digitsToNat ds, rest)

/-- Consumes an exact literal, returning the remaining input. -/
def dropLiteral : List Char → List Char → Option (List Char)
  | [], l => some l
  | p :: ps, c :: cs => if p == c then dropLiteral ps cs else none
  | _ :: _, [] => none

/-- Attempts the regex `D:(\d+);A:(\d+);S:(\d+);L:(\d+)` at the head of
the input (greedy `\d+` is equivalent to maximal munch here because each
group is followed by a non-digit). -/
def matchDASLAt (l : List Char) : Option (Nat × Nat × Nat × Nat) := do
  let l ← dropLiteral ['D', ':'] l
  let (d, l) ← parseLeadingNat l
  let l ← dropLiteral [';', 'A', ':'] l
  let (a, l) ← parseLeadingNat l
  let l ← dropLiteral [';', 'S', ':'] l
  let (s, l) ← parseLeadingNat l
  let l ← dropLiteral [';', 'L', ':'] l
  let (len, _) ← parseLeadingNat l
  pure (d, a, s, len)

/-- Leftmost match of `D:(\d+);A:(\d+);S:(\d+);L:(\d+)` in the input
(`String.prototype.match` without `^` anchors searches all positions). -/
def findDASL : List Char → Option (Nat × Nat × Nat × Nat)
  | [] => none
  | c :: rest =>
    match matchDASLAt (c :: rest) with
    | some r => some r
    | none => findDASL rest

/-- Embeds `parseInt(s, 10) || 0` as used on the remote `count` field: skip
leading whitespace, accept an optional sign, read leading digits;
anything unparsable (and `-0`) collapses to `0`. -/
def parseIntOrZero (s : String) : Int :=
  let l := s.toList.dropWhile isJsWhitespace
  match l with
  | '-' :: rest =>
    match parseLeadingNat rest with
    | some (n, _) => -(n : Int)
    | none => 0
  | '+' :: rest =>
    match parseLeadingNat rest with
    | some (n, _) => (n : Int)
    | none => 0
  | _ =>
    match parseLeadingNat l with
    | some (n, _) => (n : Int)
    | none => 0

/-- Base of the XposedOrNot anonymous password-check URL
(xposed-or-not-api.service.ts:119). -/
def pwAnonBase : String := "https://passwords.xposedornot.com/api/v1/pass/anon/"

/-- The first `n` characters of a string (`String.prototype.slice(0, n)`). -/
def sliceTo (n : Nat) (s : String) : String := String.mk (s.toList.take n)

/-- The remote query URL of the anonymous password check: the base URL
followed by `hash.slice(0, 10)` — only the first ten hex characters of
the digest (xposed-or-not-api.service.ts:118-119). -/
def pwAnonURL (hash : String) : String := pwAnonBase ++ sliceTo 10 hash

/-- Embeds `XposedOrNotApiService.checkPassword`
(xposed-or-not-api.service.ts:104-167).  `fetch` is the settled
`scrapeJSON` call for the anonymous URL: `none` models a rejected
promise (scrape failure or timeout), which the service catches — it
never rethrows; every non-hit path ends in a cache write under the
shared `password:{hash}` key. -/
def xposedCheckPassword (keccak512 : String → String)
    (fetch : Option PasswordCheckResponse)
    (password : String) (cache : Cache) : OpOut PasswordCheckResult :=
  if password = "" then ⟨.ok (computePasswordStats ""), cache, []⟩
  else
    let hash := keccak512 password
    let cacheKey := "password:" ++ hash
    match getCachedPw cache cacheKey with
    | some cached => ⟨.ok cached, cache, [.cacheRead cacheKey]⟩
    | none =>
      let url := pwAnonURL hash
      let cachedFallback : OpOut PasswordCheckResult :=
        let computed := computePasswordStats password
        ⟨.ok computed, cacheSet cache cacheKey (.pwResult computed),
         [.cacheRead cacheKey, .fetchCall url,
          .cacheWrite cacheKey (24 * 60 * 60)]⟩
      match fetch with
      | none => cachedFallback
      | some resp =>
        if resp.Error = some "Not found" then cachedFallback
        else
          match resp.SearchPassAnon with
          | none => cachedFallback
          | some spa =>
            let dasl := (findDASL spa.char.toList).getD (0, 0, 0, 0)
            let finalResult : PasswordCheckResult :=
              { found := true, count := parseIntOrZero spa.count,
                digits := dasl.1, alphabets := dasl.2.1,
                specialChars := dasl.2.2.1, length := dasl.2.2.2 }
            ⟨.ok finalResult, cacheSet cache cacheKey (.pwResult finalResult),
             [.cacheRead cacheKey, .fetchCall url,
              .cacheWrite cacheKey (24 * 60 * 60)]⟩

/-- Environment outcome of one navigation of the resilient fetch layer:
the HTTP status (`none` when `page.goto` resolved without a response)
and the JSON payloads obtainable by response interception and by
parsing the rendered page body. -/
structure NavOutcome (α : Type) where
  status : Option Nat
  intercepted : Option α
  rendered : Option α

/-- The `CLOUDFLARE_ERROR` thrown on a 403 status
(src/unnamed/part_004:745-750): the block-signal failure. -/
def cloudflareBlockedError : AppError :=
  { message := "Access denied by Cloudflare", statusCode := 403,
    code := "CLOUDFLARE_ERROR" }

/-- The `RATE_LIMIT_ERROR` thrown on a 429 status
(src/unnamed/part_004:751-752): the rate-limit failure. -/
def rateLimitedError : AppError :=
  { message := "Too many requests", statusCode := 429,
    code := "RATE_LIMIT_ERROR" }

/-- Embeds `PuppeteerService.scrapeJSON` of the pooled fetch layer
(src/unnamed/part_004:710-776).  `env` maps the attempt number to that
navigation's outcome.  The implementation performs exactly one
navigation (`env 0`) — the `retries` budget is accepted but never used,
and the retrying clearance acquisition is not invoked: a 403 throws
`CLOUDFLARE_ERROR` immediately, a 429 throws `RATE_LIMIT_ERROR`
immediately, otherwise the intercepted payload is preferred over the
rendered fallback and a missing payload throws `SCRAPE_ERROR`.  The
second component is the number of navigations performed. -/
def scrapeJSON (α : Type) (retries : Nat) (env : Nat → NavOutcome α) :
    Except AppError α × Nat :=
  let _ := retries
  let nav := env 0
  let result : Except AppError α :=
    if nav.status = some 403 then
      .error cloudflareBlockedError
    else if nav.status = some 429 then
      .error rateLimitedError
    else
      match nav.intercepted with
      | some data => .ok data
      | none =>
        match nav.rendered with
        | some data => .ok data
        | none =>
          .error { message := "Failed to retrieve JSON data", statusCode := 500,
                   code := "SCRAPE_ERROR" }
  (result, 1)

/-- Whether some settled checker outcome is fulfilled with `found=true`. -/
def anyFound : List (Option PasswordCheckResult) → Bool
  | [] => false
  | some r :: rest => r.found || anyFound rest
  | none :: rest => anyFound rest

/-- Sum of the `count` fields of the fulfilled outcomes with `found=true`. -/
def sumFoundCounts : List (Option PasswordCheckResult) → Int
  | [] => 0
  | some r :: rest => (if r.found then r.count else 0) + sumFoundCounts rest
  | none :: rest => sumFoundCounts rest

/-- The URLs of the outgoing HTTP fetches recorded in a trace. -/
def fetchURLs (events : List Event) : List String :=
  events.filterMap (fun e =>
    match e with
    | .fetchCall u => some u
    | _ => none)

/-- The notifications produced by one monitoring-loop body. -/
def monitorNotifications :
    Except AppError (Cache × List (Int × List Breach)) → List (Int × List Breach)
  | .error _ => []
  | .ok (_, ns) => ns

/-- Asserts that `needle` occurs as a contiguous substring of `hay`. -/
def strOccursIn (needle hay : String) : Prop :=
  ∃ l r, hay.toList = l ++ needle.toList ++ r

lemma strOccursIn_length_le {needle hay : String} (h : strOccursIn needle hay) :
    needle.toList.length ≤ hay.toList.length := by
  obtain ⟨l, r, hr⟩ := h
  have hlen := congrArg List.length hr
  simp only [List.length_append] at hlen
  omega

lemma not_digit_and_alpha (c : Char) :
    ¬(isDigitChar c = true ∧ isAlphaChar c = true) := by
  simp only [isDigitChar, isAlphaChar, Bool.and_eq_true, Bool.or_eq_true,
    decide_eq_true_eq]
  rintro ⟨⟨_, h9⟩, ⟨ha, _⟩ | ⟨hA, _⟩⟩
  · exact absurd (le_trans ha h9) (by decide)
  · exact absurd (le_trans hA h9) (by decide)

/-- Every character is counted by exactly one of the three composition
filters of `computePasswordStats`. -/
lemma char_class_partition (l : List Char) :
    (l.filter isDigitChar).length + (l.filter isAlphaChar).length +
      (l.filter (fun c => !(isAlphaChar c || isDigitChar c))).length =
      l.length := by
  induction l with
  | nil => rfl
  | cons c rest ih =>
    cases h1 : isDigitChar c <;> cases h2 : isAlphaChar c
    · rw [List.filter_cons_of_neg (by simp [h1]),
        List.filter_cons_of_neg (by simp [h2]),
        List.filter_cons_of_pos (by simp [h1, h2])]
      simp only [List.length_cons]
      omega
    · rw [List.filter_cons_of_neg (by simp [h1]),
        List.filter_cons_of_pos (by simp [h2]),
        List.filter_cons_of_neg (by simp [h1, h2])]
      simp only [List.length_cons]
      omega
    · rw [List.filter_cons_of_pos (by simp [h1]),
        List.filter_cons_of_neg (by simp [h2]),
        List.filter_cons_of_neg (by simp [h1, h2])]
      simp only [List.length_cons]
      omega
    · exact absurd ⟨h1, h2⟩ (not_digit_and_alpha c)

/-- The composition fields of `computePasswordStats` always partition
the password exactly: digits + alphabets + specialChars = length. -/
lemma computePasswordStats_partition (password : String) :
    (computePasswordStats password).digits +
      (computePasswordStats password).alphabets +
      (computePasswordStats password).specialChars =
      (computePasswordStats password).length := by
  simpa [computePasswordStats] using char_class_partition password.toList

/-- Componentwise description of the `checkPassword` accumulation fold:
the composition fields of the accumulator are never touched; `found` and
`count` aggregate the fulfilled `found=true` outcomes. -/
lemma pwFold_spec (outcomes : List (Option PasswordCheckResult)) :
    ∀ acc : PasswordCheckResult,
      (outcomes.foldl pwAccumStep acc).digits = acc.digits ∧
      (outcomes.foldl pwAccumStep acc).alphabets = acc.alphabets ∧
      (outcomes.foldl pwAccumStep acc).specialChars = acc.specialChars ∧
      (outcomes.foldl pwAccumStep acc).length = acc.length ∧
      (outcomes.foldl pwAccumStep acc).found = (acc.found || anyFound outcomes) ∧
      (outcomes.foldl pwAccumStep acc).count = acc.count + sumFoundCounts outcomes := by
  induction outcomes with
  | nil => intro acc; simp [anyFound, sumFoundCounts]
  | cons o rest ih =>
    intro acc
    cases o with
    | none =>
      simpa [List.foldl_cons, pwAccumStep, anyFound, sumFoundCounts] using ih acc
    | some r =>
      cases hr : r.found with
      | false =>
        have := ih acc
        simp [List.foldl_cons, pwAccumStep, hr, anyFound, sumFoundCounts]
        exact this
      | true =>
        have := ih { acc with found := true, count := acc.count + r.count }
        simp [List.foldl_cons, pwAccumStep, hr, anyFound, sumFoundCounts] at this ⊢
        refine ⟨this.1, this.2.1, this.2.2.1, this.2.2.2.1, ?_, ?_⟩
        · simp [this.2.2.2.2.1]
        · rw [this.2.2.2.2.2]
          omega

/-- Reading back the key just written returns the written breach list. -/
lemma getCachedBreaches_cacheSet (cache : Cache) (k : String) (bs : List Breach) :
    getCachedBreaches (cacheSet cache k (.breaches bs)) k = some bs := by
  simp [getCachedBreaches, cacheGet, cacheSet, List.find?]

/-- Whenever `checkEmailBreaches` resolves with a breach list, the
`email:{email}` cache key of its final cache holds exactly that list
(on a hit it was already there; on a miss the merged list was just
written). -/
lemma checkEmailBreaches_ok_cached (outcomes : List (Option (List Breach)))
    (email : String) (cache : Cache) (bs : List Breach)
    (h : (checkEmailBreaches outcomes email cache).result = .ok bs) :
    getCachedBreaches (checkEmailBreaches outcomes email cache).cache
      ("email:" ++ email) = some bs := by
  by_cases hv : isValidEmail email = true
  · cases hc : getCachedBreaches cache ("email:" ++ email) with
    | some cached =>
      simp [checkEmailBreaches, hv, hc] at h ⊢
      exact h ▸ rfl
    | none =>
      simp [checkEmailBreaches, hv, hc] at h ⊢
      rw [← h]
      exact getCachedBreaches_cacheSet cache ("email:" ++ email) _
  · have hv' : isValidEmail email = false := by
      cases hx : isValidEmail email
      · rfl
      · exact absurd hx hv
    simp [checkEmailBreaches, hv'] at h

lemma removeDuplicatesAux_sublist (l : List Breach) :
    ∀ seen, (removeDuplicatesAux seen l).Sublist l := by
  induction l with
  | nil => intro seen; simp [removeDuplicatesAux]
  | cons b rest ih =>
    intro seen
    by_cases h : breachKey b ∈ seen
    · simpa [removeDuplicatesAux, h] using (ih seen).cons b
    · simpa [removeDuplicatesAux, h] using (ih (breachKey b :: seen)).cons₂ b

lemma mem_removeDuplicatesAux_key_not_seen (l : List Breach) :
    ∀ seen b, b ∈ removeDuplicatesAux seen l → breachKey b ∉ seen := by
  induction l with
  | nil => intro seen b hb; simp [removeDuplicatesAux] at hb
  | cons c rest ih =>
    intro seen b hb
    by_cases h : breachKey c ∈ seen
    · simp [removeDuplicatesAux, h] at hb
      exact ih seen b hb
    · simp [removeDuplicatesAux, h] at hb
      rcases hb with rfl | hb
      · exact h
      · have := ih (breachKey c :: seen) b hb
        exact fun hs => this (List.mem_cons_of_mem _ hs)

lemma removeDuplicatesAux_first_occurrence (l : List Breach) :
    ∀ seen b, b ∈ removeDuplicatesAux seen l →
      l.find? (fun x => decide (breachKey x = breachKey b)) = some b := by
  induction l with
  | nil => intro seen b hb; simp [removeDuplicatesAux] at hb
  | cons c rest ih =>
    intro seen b hb
    by_cases h : breachKey c ∈ seen
    · simp only [removeDuplicatesAux, if_pos h] at hb
      have hkey : breachKey b ∉ seen := mem_removeDuplicatesAux_key_not_seen rest seen b hb
      have hne : breachKey c ≠ breachKey b := fun he => hkey (he ▸ h)
      rw [List.find?_cons_of_neg _ (by simpa using hne)]
      exact ih seen b hb
    · simp only [removeDuplicatesAux, if_neg h] at hb
      rcases List.mem_cons.mp hb with rfl | hb
      · exact List.find?_cons_of_pos _ (by simp)
      · have hkey := mem_removeDuplicatesAux_key_not_seen rest (breachKey c :: seen) b hb
        have hne : breachKey c ≠ breachKey b := by
          intro he
          exact hkey (he ▸ List.mem_cons_self _ _)
        rw [List.find?_cons_of_neg _ (by simpa using hne)]
        exact ih (breachKey c :: seen) b hb

lemma removeDuplicatesAux_idem (l : List Breach) :
    ∀ seen, removeDuplicatesAux seen (removeDuplicatesAux seen l) =
      removeDuplicatesAux seen l := by
  induction l with
  | nil => intro seen; simp [removeDuplicatesAux]
  | cons c rest ih =>
    intro seen
    by_cases h : breachKey c ∈ seen
    · simp only [removeDuplicatesAux, if_pos h]
      exact ih seen
    · simp only [removeDuplicatesAux, if_neg h]
      rw [ih (breachKey c :: seen)]

lemma removeDuplicatesAux_covers (l : List Breach) :
    ∀ seen b, b ∈ l → breachKey b ∈ seen ∨
      ∃ b', b' ∈ removeDuplicatesAux seen l ∧ breachKey b' = breachKey b := by
  induction l with
  | nil => intro seen b hb; simp at hb
  | cons c rest ih =>
    intro seen b hb
    by_cases h : breachKey c ∈ seen
    · simp only [removeDuplicatesAux, if_pos h]
      rcases List.mem_cons.mp hb with rfl | hb
      · exact Or.inl h
      · exact ih seen b hb
    · simp only [removeDuplicatesAux, if_neg h]
      rcases List.mem_cons.mp hb with rfl | hb
      · exact Or.inr ⟨b, List.mem_cons_self _ _, rfl⟩
      · rcases ih (breachKey c :: seen) b hb with hs | ⟨b', hb', he⟩
        · rcases List.mem_cons.mp hs with he | hs
          · exact Or.inr ⟨c, List.mem_cons_self _ _, he.symm⟩
          · exact Or.inl hs
        · exact Or.inr ⟨b', List.mem_cons_of_mem _ hb', he⟩

/-- C1: the monitoring loop can never send a notification.
`checkEmailBreaches` is cache-first: on a hit it returns exactly the
stored snapshot, and on a miss it writes the fresh merged list to
`email:{email}` *before* the loop body reads the "previous" snapshot
from that same key.  Either way the snapshot read by the diff equals the
freshly returned list, so the set of new breaches is always empty and no
notification is ever generated — contradicting the specified behaviour
(one notification listing exactly the new breaches).  In particular, in
the claim's own scenario — cached snapshot `[A]`, chat id present, fresh
checker result `[A, B]` — no notification is produced. -/
theorem monitorEmails_sends_no_notifications :
    (∀ (outcomes : List (Option (List Breach))) (email : String) (cache : Cache),
      monitorNotifications (monitorEmailsStep outcomes email cache) = []) ∧
    monitorNotifications (monitorEmailsStep
      [some [⟨"A", some "a.com", none⟩, ⟨"B", some "b.com", none⟩]]
      "alice@example.com"
      [("monitor:alice@example.com", .chatId 7),
       ("email:alice@example.com", .breaches [⟨"A", some "a.com", none⟩])]) = [] := by
  refine ⟨fun outcomes email cache => ?_, ?_⟩
  case refine_2 => decide
  unfold monitorEmailsStep
  cases hc : getCachedChatId cache ("monitor:" ++ email) with
  | none => rfl
  | some chatId =>
    by_cases hz : chatId = 0
    · simp [hz, monitorNotifications]
    · simp only [if_neg hz]
      cases hr : (checkEmailBreaches outcomes email cache).result with
      | error e => simp [monitorNotifications]
      | ok breaches =>
        have hprev := checkEmailBreaches_ok_cached outcomes email cache breaches hr
        have hfil : breaches.filter (fun b =>
            !breaches.any (fun p =>
              decide (p.Name = b.Name ∧ p.Domain = b.Domain))) = [] := by
          rw [List.filter_eq_nil_iff]
          intro b hb
          simp
          exact ⟨b, hb, rfl, rfl⟩
        simp [hprev, hfil, monitorNotifications]
        intro a ha
        exact ⟨a, ha, rfl, rfl⟩

/-- C2: on a valid email and a cache miss, the aggregation never rejects:
it resolves with the deduplicated concatenation of exactly the fulfilled
checkers' contributions (rejected or timed-out checkers contribute
nothing), and when every checker failed it resolves with the empty
list. -/
theorem checkEmailBreaches_partial_failure_tolerance
    (outcomes : List (Option (List Breach))) (email : String) (cache : Cache)
    (hv : isValidEmail email = true)
    (hm : getCachedBreaches cache ("email:" ++ email) = none) :
    (checkEmailBreaches outcomes email cache).result =
      .ok (removeDuplicates (outcomes.filterMap id).flatten) ∧
    ((∀ o ∈ outcomes, o = none) →
      (checkEmailBreaches outcomes email cache).result = .ok []) := by
  have h1 : (checkEmailBreaches outcomes email cache).result =
      .ok (removeDuplicates (outcomes.filterMap id).flatten) := by
    simp [checkEmailBreaches, hv, hm]
  refine ⟨h1, fun hall => ?_⟩
  have hnil : outcomes.filterMap id = [] :=
    List.filterMap_eq_nil_iff.mpr (fun o ho => by rw [hall o ho]; rfl)
  rw [h1, hnil]
  rfl

/-- C2 witness: checker A rejected, checker B fulfilled with one breach
named "X": the aggregation resolves with exactly that breach. -/
theorem checkEmailBreaches_partial_failure_tolerance_witness :
    (checkEmailBreaches [none, some [⟨"X", none, none⟩]] "alice@example.com"
      []).result = .ok [⟨"X", none, none⟩] := by
  have h := checkEmailBreaches_partial_failure_tolerance
      [none, some [⟨"X", none, none⟩]] "alice@example.com" []
      (by decide) (by decide)
  exact h.1

/-- C3: a string rejected by the email regex makes both
`checkEmailBreaches` and `getAnalytics` fail with the `InvalidInput`
error while performing no cache read, no cache write and no checker or
network call, and leaving the cache exactly as it was. -/
theorem invalid_email_rejected_before_io
    (bOutcomes : List (Option (List Breach)))
    (aOutcomes : List (Option Analytics))
    (email : String) (cache : Cache) (h : isValidEmail email = false) :
    checkEmailBreaches bOutcomes email cache =
      ⟨.error invalidEmailError, cache, []⟩ ∧
    getAnalytics aOutcomes email cache =
      ⟨.error invalidEmailError, cache, []⟩ := by
  constructor
  · simp [checkEmailBreaches, h]
  · simp [getAnalytics, h]

/-- C3 witness: `"not-an-email"` is rejected with no I/O and an
unchanged cache. -/
theorem invalid_email_rejected_before_io_witness :
    checkEmailBreaches [some [⟨"X", none, none⟩]] "not-an-email"
        [("stats:x", .chatId 5)] =
      ⟨.error invalidEmailError, [("stats:x", .chatId 5)], []⟩ ∧
    getAnalytics [] "not-an-email" [("stats:x", .chatId 5)] =
      ⟨.error invalidEmailError, [("stats:x", .chatId 5)], []⟩ :=
  invalid_email_rejected_before_io [some [⟨"X", none, none⟩]] []
    "not-an-email" [("stats:x", .chatId 5)] (by decide)

/-- C4: on a valid email whose `email:{email}` key is populated,
`checkEmailBreaches` returns exactly the stored list, leaves the cache
untouched, and its whole trace is the single cache read — no checker
invocation, no fetch, no write. -/
theorem checkEmailBreaches_cache_hit_no_network
    (outcomes : List (Option (List Breach))) (email : String) (cache : Cache)
    (bs : List Breach) (hv : isValidEmail email = true)
    (hc : getCachedBreaches cache ("email:" ++ email) = some bs) :
    checkEmailBreaches outcomes email cache =
      ⟨.ok bs, cache, [.cacheRead ("email:" ++ email)]⟩ := by
  simp [checkEmailBreaches, hv, hc]

/-- C4 witness: a pre-populated entry for `alice@example.com` is
returned as is, with no checker invoked. -/
theorem checkEmailBreaches_cache_hit_no_network_witness :
    checkEmailBreaches [none, none] "alice@example.com"
        [("email:alice@example.com", .breaches [⟨"Adobe", some "adobe.com", none⟩])] =
      ⟨.ok [⟨"Adobe", some "adobe.com", none⟩],
       [("email:alice@example.com", .breaches [⟨"Adobe", some "adobe.com", none⟩])],
       [.cacheRead "email:alice@example.com"]⟩ :=
  checkEmailBreaches_cache_hit_no_network [none, none] "alice@example.com"
    [("email:alice@example.com", .breaches [⟨"Adobe", some "adobe.com", none⟩])]
    [⟨"Adobe", some "adobe.com", none⟩] (by decide) (by decide)

/-- C5 environment: the first navigation is blocked (403), every later
navigation would succeed with an interceptable payload. -/
def c5Env : Nat → NavOutcome Nat := fun i =>
  if i = 0 then ⟨some 403, none, some 7⟩ else ⟨some 200, some 7, none⟩

/-- C5 counterexample: with an attempt budget of 3 and a block signal on
the first navigation only (the later attempts would have succeeded),
`scrapeJSON` fails with the block error after a single navigation — the
block signal is not retried on non-final attempts, so `ChallengeBlocked`
does not require every attempt to see a block. -/
theorem scrapeJSON_block_not_retried :
    scrapeJSON Nat 3 c5Env = (.error cloudflareBlockedError, 1) ∧
    (c5Env 1).status = some 200 ∧ (c5Env 2).status = some 200 :=
  ⟨rfl, rfl, rfl⟩

/-- C5 amended: `scrapeJSON` performs exactly one navigation regardless
of the attempt budget; a block status (403) on that navigation fails
immediately with the block error, and a rate-limit status (429) fails
immediately with the rate-limit error — neither is ever retried. -/
theorem scrapeJSON_single_attempt_policy (α : Type) (retries : Nat)
    (env : Nat → NavOutcome α) :
    (scrapeJSON α retries env).2 = 1 ∧
    ((env 0).status = some 403 →
      (scrapeJSON α retries env).1 = .error cloudflareBlockedError) ∧
    ((env 0).status ≠ some 403 → (env 0).status = some 429 →
      (scrapeJSON α retries env).1 = .error rateLimitedError) := by
  refine ⟨rfl, fun h => ?_, fun h1 h2 => ?_⟩
  · simp [scrapeJSON, h]
  · simp [scrapeJSON, h1, h2]

/-- C5 environment for the witness: a rate-limit signal on the first
navigation. -/
def c5Env429 : Nat → NavOutcome Nat := fun _ => ⟨some 429, none, none⟩

/-- C5 witness: a 429 on attempt 1 yields the rate-limit failure with no
further navigation. -/
theorem scrapeJSON_single_attempt_policy_witness :
    (scrapeJSON Nat 3 c5Env429).2 = 1 ∧
    (scrapeJSON Nat 3 c5Env429).1 = .error rateLimitedError :=
  ⟨(scrapeJSON_single_attempt_policy Nat 3 c5Env429).1,
   (scrapeJSON_single_attempt_policy Nat 3 c5Env429).2.2 (by decide) (by decide)⟩

/-- C6: `checkPassword` on an empty password returns the zero-value
stats object with no cache or network access; on a nonempty password and
a cache miss it resolves with the locally computed composition fields,
`found` true exactly when some fulfilled checker reported `found=true`,
and `count` the sum of the counts of exactly those checkers; and the
locally computed stats for "abc123!" are digits=3, alphabets=3,
specialChars=1, length=7. -/
theorem checkPassword_aggregation_spec
    (keccak512 : String → String) (outcomes : List (Option PasswordCheckResult))
    (password : String) (cache : Cache) :
    (password = "" →
      checkPassword keccak512 outcomes password cache =
        ⟨.ok (computePasswordStats ""), cache, []⟩) ∧
    (password ≠ "" →
      getCachedPw cache ("password:" ++ keccak512 password) = none →
      (checkPassword keccak512 outcomes password cache).result =
        .ok { computePasswordStats password with
              found := anyFound outcomes
              count := sumFoundCounts outcomes }) ∧
    computePasswordStats "abc123!" =
      { found := false, count := 0, digits := 3, alphabets := 3,
        specialChars := 1, length := 7 } := by
  refine ⟨fun he => ?_, fun hne hm => ?_, by decide⟩
  · subst he
    simp [checkPassword]
  · have hfold := pwFold_spec outcomes (computePasswordStats password)
    obtain ⟨h1, h2, h3, h4, h5, h6⟩ := hfold
    have hX : outcomes.foldl pwAccumStep (computePasswordStats password) =
        { computePasswordStats password with
          found := anyFound outcomes
          count := sumFoundCounts outcomes } := by
      have he : outcomes.foldl pwAccumStep (computePasswordStats password) =
          ⟨(outcomes.foldl pwAccumStep (computePasswordStats password)).found,
           (outcomes.foldl pwAccumStep (computePasswordStats password)).count,
           (outcomes.foldl pwAccumStep (computePasswordStats password)).digits,
           (outcomes.foldl pwAccumStep (computePasswordStats password)).alphabets,
           (outcomes.foldl pwAccumStep (computePasswordStats password)).specialChars,
           (outcomes.foldl pwAccumStep (computePasswordStats password)).length⟩ := rfl
      rw [he, h1, h2, h3, h4, h5, h6]
      simp [computePasswordStats]
    simp [checkPassword, hne, hm, hX]

/-- C6 witness: for "abc123!" with checker A rejected and checker B
fulfilled with `found=true, count=42`, the result keeps the local
composition (3/3/1/7) with `found=true` and `count=42`. -/
theorem checkPassword_aggregation_spec_witness :
    (checkPassword (fun _ => "feedc0deadbeef")
        [none, some ⟨true, 42, 0, 0, 0, 0⟩] "abc123!" []).result =
      .ok { computePasswordStats "abc123!" with
            found := anyFound [none, some ⟨true, 42, 0, 0, 0, 0⟩]
            count := sumFoundCounts [none, some ⟨true, 42, 0, 0, 0, 0⟩] } :=
  (checkPassword_aggregation_spec (fun _ => "feedc0deadbeef")
    [none, some ⟨true, 42, 0, 0, 0, 0⟩] "abc123!" []).2.1
    (by decide) (by decide)

/-- C7: `removeDuplicates` is idempotent; its output is a sublist of its
input in which every kept breach is the *first* input element bearing
its case-insensitive name (so `Domain` and `BreachDate` never influence
identity), and every input name is still represented. -/
theorem removeDuplicates_first_occurrence_idempotent (l : List Breach) :
    removeDuplicates (removeDuplicates l) = removeDuplicates l ∧
    (removeDuplicates l).Sublist l ∧
    (∀ b ∈ removeDuplicates l,
      l.find? (fun x => decide (breachKey x = breachKey b)) = some b) ∧
    (∀ b ∈ l, ∃ b', b' ∈ removeDuplicates l ∧ breachKey b' = breachKey b) := by
  refine ⟨removeDuplicatesAux_idem l [], removeDuplicatesAux_sublist l [],
    fun b hb => removeDuplicatesAux_first_occurrence l [] b hb,
    fun b hb => ?_⟩
  rcases removeDuplicatesAux_covers l [] b hb with hs | h
  · simp at hs
  · exact h

/-- C7 witness: "Adobe" and "ADOBE" collapse to the first occurrence,
and deduplicating the already-deduplicated list changes nothing. -/
theorem removeDuplicates_first_occurrence_idempotent_witness :
    removeDuplicates (removeDuplicates
        [⟨"Adobe", some "adobe.com", none⟩, ⟨"ADOBE", some "other.com", some "2013"⟩]) =
      removeDuplicates
        [⟨"Adobe", some "adobe.com", none⟩, ⟨"ADOBE", some "other.com", some "2013"⟩] ∧
    removeDuplicates
        [⟨"Adobe", some "adobe.com", none⟩, ⟨"ADOBE", some "other.com", some "2013"⟩] =
      [⟨"Adobe", some "adobe.com", none⟩] :=
  ⟨(removeDuplicates_first_occurrence_idempotent
      [⟨"Adobe", some "adobe.com", none⟩, ⟨"ADOBE", some "other.com", some "2013"⟩]).1,
   by decide⟩

/-- C8 counterexample inputs: a LeakCheck "not found" response and a
failing password fetch. -/
def c8NotFoundResp : LeakCheckResponse := { success := false, sources := [] }

/-- C8 counterexample stand-in digest function. -/
def c8Keccak : String → String := fun _ => "8f14e45fceea167a"

/-- C8 counterexample: (i) the direct-HTTP checker's "not found" outcome
returns an empty list but caches nothing (the cache is returned
unchanged), and (ii) the challenge-resilient password checker's error
outcome does not propagate — it resolves with locally computed stats and
*does* write the cache.  Both contradict the claimed policy ("not-found
is cached; an error propagates and caches nothing"). -/
theorem checker_notfound_error_policy_counterexample :
    (leakCheckCheckEmailBreaches (some c8NotFoundResp) "u" "a@b.co" []).result =
      .ok [] ∧
    (leakCheckCheckEmailBreaches (some c8NotFoundResp) "u" "a@b.co" []).cache =
      [] ∧
    (xposedCheckPassword c8Keccak none "hunter2" []).result =
      .ok (computePasswordStats "hunter2") ∧
    (xposedCheckPassword c8Keccak none "hunter2" []).cache ≠ [] :=
  ⟨rfl, rfl, rfl, by decide⟩

/-- C8 amended: for the email-breach operations an error propagates as a
raised error with no cache write; the direct-HTTP checker's "not found"
returns an empty list *without* caching it; the challenge-resilient
email checker caches whatever (possibly empty) list a successful fetch
produced; and the challenge-resilient password operation never raises —
on a failed fetch and on a "Not found" reply alike it caches locally
computed stats under the shared `password:{hash}` key and returns them. -/
theorem checker_notfound_error_policy
    (email url password : String) (cache : Cache)
    (keccak512 : String → String) (resp : LeakCheckResponse)
    (xresp : PasswordCheckResponse) :
    (getCachedBreaches cache ("leakcheck:" ++ email) = none →
      leakCheckCheckEmailBreaches none url email cache =
        ⟨.error { message := "LeakCheck API error", statusCode := 500,
                  code := "LEAKCHECK_ERROR" },
         cache, [.cacheRead ("leakcheck:" ++ email), .fetchCall url]⟩ ∧
      (resp.success = false →
        leakCheckCheckEmailBreaches (some resp) url email cache =
          ⟨.ok [], cache,
           [.cacheRead ("leakcheck:" ++ email), .fetchCall url]⟩)) ∧
    (getCachedBreaches cache ("xposed:" ++ email) = none →
      xposedCheckEmailBreaches none url email cache =
        ⟨.error { message := "XposedOrNot API error", statusCode := 500,
                  code := "XPOSED_OR_NOT_ERROR" },
         cache, [.cacheRead ("xposed:" ++ email), .fetchCall url]⟩) ∧
    (password ≠ "" →
      getCachedPw cache ("password:" ++ keccak512 password) = none →
      xposedCheckPassword keccak512 none password cache =
        ⟨.ok (computePasswordStats password),
         cacheSet cache ("password:" ++ keccak512 password)
           (.pwResult (computePasswordStats password)),
         [.cacheRead ("password:" ++ keccak512 password),
          .fetchCall (pwAnonURL (keccak512 password)),
          .cacheWrite ("password:" ++ keccak512 password) (24 * 60 * 60)]⟩ ∧
      (xresp.Error = some "Not found" →
        xposedCheckPassword keccak512 (some xresp) password cache =
          ⟨.ok (computePasswordStats password),
           cacheSet cache ("password:" ++ keccak512 password)
             (.pwResult (computePasswordStats password)),
           [.cacheRead ("password:" ++ keccak512 password),
            .fetchCall (pwAnonURL (keccak512 password)),
            .cacheWrite ("password:" ++ keccak512 password) (24 * 60 * 60)]⟩)) := by
  refine ⟨fun hm => ⟨?_, fun hs => ?_⟩, fun hm => ?_, fun hp hm => ⟨?_, fun hE => ?_⟩⟩
  · simp [leakCheckCheckEmailBreaches, hm]
  · simp [leakCheckCheckEmailBreaches, hm, hs]
  · simp [xposedCheckEmailBreaches, hm]
  · simp [xposedCheckPassword, hp, hm]
  · simp [xposedCheckPassword, hp, hm, hE]

/-- C8 witness: the amended policy at concrete inputs — a rejected
LeakCheck fetch propagates as an error without touching the empty cache,
and a failed password fetch resolves with the local stats while writing
the shared password key. -/
theorem checker_notfound_error_policy_witness :
    leakCheckCheckEmailBreaches none "u" "a@b.co" [] =
      ⟨.error { message := "LeakCheck API error", statusCode := 500,
                code := "LEAKCHECK_ERROR" },
       [], [.cacheRead "leakcheck:a@b.co", .fetchCall "u"]⟩ ∧
    xposedCheckPassword c8Keccak none "hunter2" [] =
      ⟨.ok (computePasswordStats "hunter2"),
       cacheSet [] "password:8f14e45fceea167a"
         (.pwResult (computePasswordStats "hunter2")),
       [.cacheRead "password:8f14e45fceea167a",
        .fetchCall (pwAnonURL "8f14e45fceea167a"),
        .cacheWrite "password:8f14e45fceea167a" (24 * 60 * 60)]⟩ :=
  ⟨((checker_notfound_error_policy "a@b.co" "u" "hunter2" [] c8Keccak
      c8NotFoundResp ⟨none, none⟩).1 (by decide)).1,
   ((checker_notfound_error_policy "a@b.co" "u" "hunter2" [] c8Keccak
      c8NotFoundResp ⟨none, none⟩).2.2 (by decide) (by decide)).1⟩

lemma pwAnonURL_length_le (h : String) : (pwAnonURL h).toList.length ≤ 61 := by
  have he : (pwAnonURL h).toList = pwAnonBase.toList ++ h.toList.take 10 := rfl
  rw [he, List.length_append]
  have h1 : pwAnonBase.toList.length = 51 := by decide
  have h2 : (h.toList.take 10).length ≤ 10 := by
    rw [List.length_take]
    exact min_le_left _ _
  omega

/-- C9: on the fresh (cache-miss) path of the challenge-resilient
password check, the only outgoing request URL is the anonymous endpoint
carrying exactly `hash.slice(0, 10)` — ten characters of the digest; the
URL is a function of that prefix alone (two digests agreeing on their
first ten characters produce the identical request), a full 128-hex-char
digest can never occur inside the request URL (it is longer than the
whole URL), and the direct-HTTP checker's password operation is a
constant that issues no request at all. -/
theorem xposed_password_prefix_only
    (keccak512 : String → String) (fetch : Option PasswordCheckResponse)
    (password : String) (cache : Cache)
    (hp : password ≠ "")
    (hm : getCachedPw cache ("password:" ++ keccak512 password) = none) :
    fetchURLs (xposedCheckPassword keccak512 fetch password cache).events =
      [pwAnonURL (keccak512 password)] ∧
    (∀ h h' : String, sliceTo 10 h = sliceTo 10 h' →
      pwAnonURL h = pwAnonURL h') ∧
    ((keccak512 password).toList.length = 128 →
      ¬ strOccursIn (keccak512 password) (pwAnonURL (keccak512 password))) ∧
    leakCheckCheckPassword =
      { found := false, count := 0, digits := 0, alphabets := 0,
        specialChars := 0, length := 0 } := by
  refine ⟨?_, fun h h' hEq => by simp [pwAnonURL, hEq], fun h128 hocc => ?_, rfl⟩
  · cases fetch with
    | none => simp [xposedCheckPassword, hp, hm, fetchURLs]
    | some resp =>
      by_cases hE : resp.Error = some "Not found"
      · simp [xposedCheckPassword, hp, hm, hE, fetchURLs]
      · cases hS : resp.SearchPassAnon with
        | none => simp [xposedCheckPassword, hp, hm, hE, hS, fetchURLs]
        | some spa => simp [xposedCheckPassword, hp, hm, hE, hS, fetchURLs]
  · have hle := strOccursIn_length_le hocc
    have hurl := pwAnonURL_length_le (keccak512 password)
    omega

/-- C9 witness digest: a fixed 128-character stand-in value. -/
def c9Digest : String := String.mk (List.replicate 128 'f')

/-- C9 witness digest function. -/
def c9Keccak : String → String := fun _ => c9Digest

/-- C9 witness: with a 128-character digest, the single outgoing URL is
the anonymous endpoint with the ten-character prefix, and the full
digest does not occur in it. -/
theorem xposed_password_prefix_only_witness :
    fetchURLs (xposedCheckPassword c9Keccak none "abc123!" []).events =
      [pwAnonURL (c9Keccak "abc123!")] ∧
    ¬ strOccursIn (c9Keccak "abc123!") (pwAnonURL (c9Keccak "abc123!")) := by
  have h := xposed_password_prefix_only c9Keccak none "abc123!" []
    (by decide) (by decide)
  exact ⟨h.1, h.2.2.1 (by simp [c9Keccak, c9Digest])⟩

/-- C10 counterexample digest function. -/
def c10Keccak : String → String := fun _ => "0123456789abcdef"

/-- C10 counterexample remote reply: the remote `D:..;A:..;S:..;L:..`
composition string is inconsistent (9+9+9 classified characters against
a reported length of 1), and the code stores it unchecked. -/
def c10Resp : PasswordCheckResponse :=
  { Error := none, SearchPassAnon := some { char := "D:9;A:9;S:9;L:1", count := "5" } }

/-- Cache state after the xposed password checker stored the
remote-derived record under the shared `password:{hash}` key. -/
def c10Cache : Cache :=
  (xposedCheckPassword c10Keccak (some c10Resp) "hunter2" []).cache

/-- C10 counterexample: after the checker cached the remote-derived
record, the orchestrator's `checkPassword` cache-hit path returns a
`PasswordCheckResult` with digits+alphabets+specialChars = 27 > 1 =
length, violating the claimed invariant. -/
theorem pw_result_invariant_counterexample :
    (checkPassword c10Keccak [] "hunter2" c10Cache).result =
      .ok ⟨true, 5, 9, 9, 9, 1⟩ ∧
    9 + 9 + 9 > 1 :=
  ⟨rfl, by decide⟩

/-- C10 amended: every `PasswordCheckResult` produced by `checkPassword`
on the empty-password path or on a cache miss — i.e. whenever its
composition fields come from `computePasswordStats` rather than from a
cached remote-derived record — satisfies
digits + alphabets + specialChars ≤ length (with equality, since the
three local character classes partition the password). -/
theorem checkPassword_local_composition_invariant
    (keccak512 : String → String) (outcomes : List (Option PasswordCheckResult))
    (password : String) (cache : Cache)
    (h : password = "" ∨ getCachedPw cache ("password:" ++ keccak512 password) = none) :
    ∀ r, (checkPassword keccak512 outcomes password cache).result = .ok r →
      r.digits + r.alphabets + r.specialChars ≤ r.length := by
  intro r hr
  by_cases he : password = ""
  · subst he
    simp [checkPassword] at hr
    rw [← hr]
    exact le_of_eq (computePasswordStats_partition "")
  · have hm : getCachedPw cache ("password:" ++ keccak512 password) = none := by
      rcases h with h | h
      · exact absurd h he
      · exact h
    simp [checkPassword, he, hm] at hr
    obtain ⟨h1, h2, h3, h4, _, _⟩ := pwFold_spec outcomes (computePasswordStats password)
    rw [← hr, h1, h2, h3, h4]
    exact le_of_eq (computePasswordStats_partition password)

/-- C10 witness: the fresh-path invariant instantiated for "abc123!"
(3 + 3 + 1 ≤ 7). -/
theorem checkPassword_local_composition_invariant_witness :
    (computePasswordStats "abc123!").digits +
      (computePasswordStats "abc123!").alphabets +
      (computePasswordStats "abc123!").specialChars ≤
      (computePasswordStats "abc123!").length :=
  checkPassword_local_composition_invariant c10Keccak [] "abc123!" []
    (Or.inr (by decide)) (computePasswordStats "abc123!") rfl

end LeakGuard
